import Mathlib

/-!
Shallow embedding of `src/index-tts/tts_api.py` (IndexTTS FastAPI service).

Strings are modelled as `List Char`; the artifact store (the flat output
directory `OUTPUT_PATH`) is an association list from file names to byte
lists.  The only directory that exists in the store model is `OUTPUT_PATH`
itself, so opening a path whose name component contains a `/` fails with
the same observable outcome as the ENOENT the real `open` raises.
Python floats appearing in the source (`duration`, `speed`, `pitch`) only
ever hold the literals `0.0` and `1.0`; they are modelled exactly as `Rat`.
-/

abbrev Str := List Char

def chars (s : String) : Str := s.data

/-- Configuration `os.getenv("OUTPUT_PATH", "/app/output")` with the default value. -/
def OUTPUT_PATH : Str := chars "/app/output"

/-- Boolean prefix test on character lists (structural, `decide`-friendly). -/
def isPrefB : Str → Str → Bool
  | [], _ => true
  | _ :: _, [] => false
  | a :: as, b :: bs => a = b && isPrefB as bs

/-- Boolean test: does `pat` occur as a contiguous substring of `s`? -/
def occursIn (pat : Str) : Str → Bool
  | [] => isPrefB pat []
  | c :: t => isPrefB pat (c :: t) || occursIn pat t

/-- Boolean suffix test. -/
def endsWithB (suf s : Str) : Bool := isPrefB suf.reverse s.reverse

/-- Python's `s.replace(pat, "")`: removes every (left-to-right,
non-overlapping) occurrence of `pat` from `s`. -/
def removeAll (pat : Str) (s : Str) : Str :=
  match s with
  | [] => []
  | c :: rest =>
    if pat ≠ [] ∧ isPrefB pat (c :: rest) then
      removeAll pat ((c :: rest).drop pat.length)
    else
      c :: removeAll pat rest
termination_by s.length
decreasing_by
  · simp only [List.length_drop, List.length_cons]
    have hp : 0 < pat.length := List.length_pos.mpr (by tauto)
    omega
  · simp

/-- Model of `os.path.join(a, b)` for the POSIX paths appearing in the service:
an absolute `b` discards `a`, otherwise the two are joined with `/`
(`a` never carries a trailing slash here). -/
def ospath_join (a b : Str) : Str :=
  match b with
  | [] => a ++ ['/']
  | c :: t => if c = '/' then c :: t else a ++ '/' :: (c :: t)

/-- Lookup in the flat artifact directory. -/
def fsLookup (files : List (Str × List Nat)) (name : Str) : Option (List Nat) :=
  match files with
  | [] => none
  | (n, b) :: rest => if n = name then some b else fsLookup rest name

/-- Write `bytes` under `name` in the flat artifact directory
(overwrite when present, append otherwise). -/
def fsStore (files : List (Str × List Nat)) (name : Str) (bytes : List Nat) :
    List (Str × List Nat) :=
  match files with
  | [] => [(name, bytes)]
  | (n, b) :: rest =>
    if n = name then (n, bytes) :: rest else (n, b) :: fsStore rest name bytes

/-- Decompose an absolute path into its name inside `OUTPUT_PATH`:
`some name` iff the path denotes a file directly inside the output
directory (the only directory the store model contains); `none` models
ENOENT on any nested or outside path. -/
def pathToName (path : Str) : Option Str :=
  if isPrefB (OUTPUT_PATH ++ ['/']) path then
    let name := path.drop (OUTPUT_PATH.length + 1)
    if '/' ∈ name then none else some name
  else none

/-- Model of `Path(path).touch()`: succeeds iff the parent directory exists;
creates an empty file when absent, leaves content alone when present. -/
def touchFile (files : List (Str × List Nat)) (path : Str) :
    Option (List (Str × List Nat)) :=
  match pathToName path with
  | none => none
  | some name =>
    if (fsLookup files name).isSome then some files else some (fsStore files name [])

/-- Model of `open(path, "wb")` followed by `f.write(bytes)`: fails (ENOENT) unless
the path is directly inside the output directory. -/
def writeFile (files : List (Str × List Nat)) (path : Str) (bytes : List Nat) :
    Option (List (Str × List Nat)) :=
  (pathToName path).map (fun name => fsStore files name bytes)

/-- Reading the file at `path`: `os.path.exists` + serving its bytes. -/
def readFile (files : List (Str × List Nat)) (path : Str) : Option (List Nat) :=
  (pathToName path).bind (fun name => fsLookup files name)

/-- Request model `TTSRequest` (pydantic), defaults as in the source. -/
structure TTSRequest where
  text : Str
  voice_prompt : Str := chars "examples/voice_01.wav"
  emotion : Str := chars "neutral"
  speed : Rat := 1
  pitch : Rat := 1

/-- Response model `TTSResponse` (pydantic). -/
structure TTSResponse where
  audio_url : Str
  duration : Rat
  text : Str

/-- FastAPI `HTTPException(status_code, detail)`. -/
structure HTTPException where
  status_code : Nat
  detail : Str

/-- Response of `/api/tts/upload-voice`. -/
structure UploadResp where
  filename : Str
  path : Str
  size : Nat

/-- One entry of `/api/tts/voices`. -/
structure VoiceEntry where
  id : Str
  name : Str
  path : Str

/-- Response of `/health`. -/
structure HealthResponse where
  status : Str
  model_loaded : Bool

/-- The mutable process state: the lazily loaded global `tts_model`
(which the current code never assigns) and the artifact store. -/
structure ServerState where
  tts_model : Option Unit
  files : List (Str × List Nat)

/-- Handler helper `get_tts_model`: when `tts_model` is `None` it runs the (stubbed)
loading body inside `try`.  Every actual assignment to `tts_model` in
that body is commented out in the source, so a completed body leaves the
global untouched; `loadRaises` models the body raising, in which case the
`except` clause re-raises without assigning the global.  Finally the
current value of `tts_model` is returned. -/
def get_tts_model (st : ServerState) (loadRaises : Bool) :
    ServerState × Except Unit (Option Unit) :=
  match st.tts_model with
  | some m => (st, .ok (some m))
  | none =>
    if loadRaises then (st, .error ())
    else (st, .ok st.tts_model)

/-- The output file name generated in `generate_speech`
(`f"{uuid.uuid4()}.wav"` with `freshId` standing for the uuid text). -/
def outputFilename (freshId : Str) : Str := freshId ++ chars ".wav"

/-- Endpoint `POST /api/tts/generate`.  `freshId` is the drawn `uuid.uuid4()`
rendered as text; `loadRaises` and `touchRaises` model the two points of
the `try` block where the runtime could raise (the model-loading body and
the `Path(...).touch()` call).  Any exception is caught and converted to
`HTTPException(500, ...)`. -/
def generate_speech (st : ServerState) (request : TTSRequest) (freshId : Str)
    (loadRaises touchRaises : Bool) : ServerState × Except HTTPException TTSResponse :=
  match get_tts_model st loadRaises with
  | (st1, .error _) =>
    (st1, .error ⟨500, chars "Speech generation failed"⟩)
  | (st1, .ok _model) =>
    let output_filename := outputFilename freshId
    let output_path := ospath_join OUTPUT_PATH output_filename
    if touchRaises then (st1, .error ⟨500, chars "Speech generation failed"⟩)
    else
      match touchFile st1.files output_path with
      | none => (st1, .error ⟨500, chars "Speech generation failed"⟩)
      | some files1 =>
        ({ st1 with files := files1 },
         .ok { audio_url := chars "/api/tts/audio/" ++ output_filename,
               duration := 0,
               text := request.text })

/-- Endpoint `GET /api/tts/audio/{filename}`: 404 when `os.path.exists` is false,
otherwise the bytes of the file (`FileResponse`). -/
def get_audio (st : ServerState) (filename : Str) :
    ServerState × Except HTTPException (List Nat) :=
  let file_path := ospath_join OUTPUT_PATH filename
  match readFile st.files file_path with
  | none => (st, .error ⟨404, chars "Audio file not found"⟩)
  | some bytes => (st, .ok bytes)

/-- Endpoint `POST /api/tts/upload-voice`: stores the upload under
`f"{uuid.uuid4()}_{file.filename}"`; any exception of the `try` block
(in particular the `open` failing) becomes `HTTPException(500, ...)`. -/
def upload_voice_sample (st : ServerState) (origName : Str) (content : List Nat)
    (freshId : Str) : ServerState × Except HTTPException UploadResp :=
  let filename := freshId ++ chars "_" ++ origName
  let file_path := ospath_join OUTPUT_PATH filename
  match writeFile st.files file_path content with
  | none => (st, .error ⟨500, chars "File upload failed"⟩)
  | some files1 =>
    ({ st with files := files1 },
     .ok { filename := filename,
           path := chars "/api/tts/audio/" ++ filename,
           size := content.length })

/-- Endpoint `GET /api/tts/voices`: the listing of the fixed `/app/examples`
directory is `none` when the directory does not exist. -/
def list_voices (examples_listing : Option (List Str)) : List VoiceEntry :=
  match examples_listing with
  | none => []
  | some files =>
    files.filterMap (fun f =>
      if endsWithB (chars ".wav") f || endsWithB (chars ".mp3") f then
        some { id := f,
               name := removeAll (chars ".mp3") (removeAll (chars ".wav") f),
               path := chars "examples/" ++ f }
      else none)

/-- Endpoint `GET /health`. -/
def health_check (st : ServerState) : HealthResponse :=
  { status := chars "healthy", model_loaded := st.tts_model.isSome }

/-- Iterated successful `get_tts_model` acquisitions. -/
def iterGet (st : ServerState) : Nat → ServerState
  | 0 => st
  | n + 1 => (get_tts_model (iterGet st n) false).1

/-- What the C10 claim asserts the displayed name to be, following the
claim text: the id stripped of its final `.wav`/`.mp3` extension. -/
def stripExtSpec (f : Str) : Str :=
  if endsWithB (chars ".wav") f then f.take (f.length - 4)
  else if endsWithB (chars ".mp3") f then f.take (f.length - 4)
  else f

/-! ### Helper lemmas about the string and store primitives -/

theorem isPrefB_iff (p s : Str) : isPrefB p s = true ↔ ∃ t, s = p ++ t := by
  induction p generalizing s with
  | nil => simp [isPrefB]
  | cons a as ih =>
    cases s with
    | nil => simp [isPrefB]
    | cons b bs =>
      simp only [isPrefB, Bool.and_eq_true, decide_eq_true_eq, ih, List.cons_append,
        List.cons.injEq]
      constructor
      · rintro ⟨hab, t, ht⟩
        exact ⟨t, hab.symm, ht⟩
      · rintro ⟨t, hab, ht⟩
        exact ⟨hab.symm, t, ht⟩

theorem isPrefB_append (p t : Str) : isPrefB p (p ++ t) = true :=
  (isPrefB_iff p (p ++ t)).mpr ⟨t, rfl⟩

theorem occursIn_cons_false {pat : Str} {c : Char} {t : Str}
    (h : occursIn pat (c :: t) = false) :
    isPrefB pat (c :: t) = false ∧ occursIn pat t = false := by
  simpa [occursIn] using h

theorem mem_of_occursIn {pat s : Str} {c : Char}
    (h : occursIn pat s = true) (hc : c ∈ pat) : c ∈ s := by
  induction s with
  | nil =>
    cases pat with
    | nil => cases hc
    | cons a as => simp [occursIn, isPrefB] at h
  | cons b bs ih =>
    simp only [occursIn, Bool.or_eq_true] at h
    rcases h with h | h
    · obtain ⟨t, ht⟩ := (isPrefB_iff pat (b :: bs)).mp h
      rw [ht]
      exact List.mem_append.mpr (Or.inl hc)
    · exact List.mem_cons_of_mem b (ih h)

theorem removeAll_of_not_occurs {pat s : Str}
    (h : occursIn pat s = false) : removeAll pat s = s := by
  induction s with
  | nil => simp [removeAll]
  | cons c t ih =>
    obtain ⟨h1, h2⟩ := occursIn_cons_false h
    rw [removeAll]
    rw [if_neg (by simp [h1])]
    rw [ih h2]

theorem isPrefB_dropLast {p s : Str} (hp : isPrefB p s = true)
    (hlen : p.length < s.length) : isPrefB p s.dropLast = true := by
  obtain ⟨t, ht⟩ := (isPrefB_iff p s).mp hp
  have htne : t ≠ [] := by
    intro h0
    rw [ht, h0, List.append_nil] at hlen
    exact lt_irrefl _ hlen
  rw [ht, List.dropLast_append_of_ne_nil p htne]
  exact isPrefB_append p t.dropLast

theorem removeAll_append_self {pat : Str} (hpat : pat ≠ []) :
    ∀ base : Str, occursIn pat (base ++ pat).dropLast = false →
      removeAll pat (base ++ pat) = base := by
  intro base
  induction base with
  | nil =>
    intro _
    rw [List.nil_append]
    cases hp : pat with
    | nil => exact absurd hp hpat
    | cons a as =>
      have hpref : isPrefB (a :: as) (a :: as) = true :=
        (isPrefB_iff _ _).mpr ⟨[], by simp⟩
      rw [removeAll, if_pos ⟨by simp, hpref⟩, List.drop_length]
      simp [removeAll]
  | cons b base1 ih =>
    intro h
    have hne : (base1 ++ pat) ≠ [] := by
      cases pat with
      | nil => exact absurd rfl hpat
      | cons a as => simp
    have hdl : ((b :: base1) ++ pat).dropLast = b :: (base1 ++ pat).dropLast := by
      rw [List.cons_append]
      exact List.dropLast_append_of_ne_nil [b] hne
    rw [hdl] at h
    obtain ⟨h1, h2⟩ := occursIn_cons_false h
    have hnp : isPrefB pat ((b :: base1) ++ pat) = false := by
      cases hx : isPrefB pat ((b :: base1) ++ pat) with
      | false => rfl
      | true =>
        have hlen : pat.length < ((b :: base1) ++ pat).length := by
          simp only [List.cons_append, List.length_cons, List.length_append]
          omega
        have hpd := isPrefB_dropLast hx hlen
        rw [hdl] at hpd
        simp [hpd] at h1
    have hcond : ¬(pat ≠ [] ∧ isPrefB pat (b :: (base1 ++ pat)) = true) := by
      intro hc
      rw [← List.cons_append] at hc
      rw [hc.2] at hnp
      exact Bool.noConfusion hnp
    rw [List.cons_append, removeAll, if_neg hcond]
    congr 1
    exact ih h2

theorem fsLookup_fsStore_self (files : List (Str × List Nat)) (name : Str)
    (bytes : List Nat) : fsLookup (fsStore files name bytes) name = some bytes := by
  induction files with
  | nil => simp [fsStore, fsLookup]
  | cons p rest ih =>
    obtain ⟨n, b⟩ := p
    by_cases h : n = name
    · simp [fsStore, fsLookup, h]
    · simp [fsStore, fsLookup, h, ih]

theorem fsStore_of_lookup_none {files : List (Str × List Nat)} {name : Str}
    (bytes : List Nat) (h : fsLookup files name = none) :
    fsStore files name bytes = files ++ [(name, bytes)] := by
  induction files with
  | nil => simp [fsStore]
  | cons p rest ih =>
    obtain ⟨n, b⟩ := p
    by_cases hn : n = name
    · simp [fsLookup, hn] at h
    · simp only [fsLookup, if_neg hn] at h
      simp [fsStore, hn, ih h]

theorem ospath_join_eq {fn : Str} (h : fn.head? ≠ some '/') :
    ospath_join OUTPUT_PATH fn = (OUTPUT_PATH ++ ['/']) ++ fn := by
  cases fn with
  | nil => simp [ospath_join]
  | cons c t =>
    have hc : c ≠ '/' := by
      intro hc
      exact h (by simp [hc])
    simp [ospath_join, hc]

theorem head?_ne_slash_of_not_mem {fn : Str} (h : ('/' : Char) ∉ fn) :
    fn.head? ≠ some '/' := by
  cases fn with
  | nil => simp
  | cons c t =>
    intro hc
    have hc' : c = '/' := Option.some.inj (by simpa using hc)
    subst hc'
    exact h (List.mem_cons_self _ t)

theorem pathToName_join {fn : Str} (h : ('/' : Char) ∉ fn) :
    pathToName (ospath_join OUTPUT_PATH fn) = some fn := by
  rw [ospath_join_eq (head?_ne_slash_of_not_mem h)]
  rw [pathToName]
  rw [if_pos (isPrefB_append _ fn)]
  have hdrop : ((OUTPUT_PATH ++ ['/']) ++ fn).drop (OUTPUT_PATH.length + 1)
      = fn := by
    have : (OUTPUT_PATH ++ ['/']).length = OUTPUT_PATH.length + 1 := by
      simp
    rw [← this, List.drop_left]
  simp only [hdrop]
  rw [if_neg h]

theorem pathToName_join_slash {fn : Str} (hhead : fn.head? ≠ some '/')
    (hmem : ('/' : Char) ∈ fn) :
    pathToName (ospath_join OUTPUT_PATH fn) = none := by
  rw [ospath_join_eq hhead]
  rw [pathToName]
  rw [if_pos (isPrefB_append _ fn)]
  have hdrop : ((OUTPUT_PATH ++ ['/']) ++ fn).drop (OUTPUT_PATH.length + 1)
      = fn := by
    have : (OUTPUT_PATH ++ ['/']).length = OUTPUT_PATH.length + 1 := by
      simp
    rw [← this, List.drop_left]
  simp only [hdrop]
  rw [if_pos hmem]

theorem get_tts_model_state (st : ServerState) (b : Bool) :
    (get_tts_model st b).1 = st := by
  rw [get_tts_model]
  cases st.tts_model with
  | none => cases b <;> simp
  | some m => simp

theorem generate_speech_tts_model (st : ServerState) (req : TTSRequest)
    (freshId : Str) (lr tr : Bool) :
    ((generate_speech st req freshId lr tr).1).tts_model = st.tts_model := by
  rw [generate_speech]
  cases hm : st.tts_model with
  | some m =>
    simp only [get_tts_model, hm]
    cases tr with
    | true => simp [hm]
    | false =>
      cases htf : touchFile st.files (ospath_join OUTPUT_PATH (outputFilename freshId)) with
      | none => simp [htf, hm]
      | some files1 => simp [htf, hm]
  | none =>
    simp only [get_tts_model, hm]
    cases lr with
    | true => simp [hm]
    | false =>
      cases tr with
      | true => simp [hm]
      | false =>
        cases htf : touchFile st.files (ospath_join OUTPUT_PATH (outputFilename freshId)) with
        | none => simp [htf, hm]
        | some files1 => simp [htf, hm]

theorem get_audio_state (st : ServerState) (fn : Str) :
    (get_audio st fn).1 = st := by
  rw [get_audio]
  cases h : readFile st.files (ospath_join OUTPUT_PATH fn) with
  | none => simp
  | some bytes => simp

theorem touchFile_lookup {files files1 : List (Str × List Nat)} {path name : Str}
    (hpn : pathToName path = some name)
    (h : touchFile files path = some files1) :
    ∃ bytes, fsLookup files1 name = some bytes := by
  rw [touchFile] at h
  simp only [hpn] at h
  by_cases hl : (fsLookup files name).isSome
  · rw [if_pos hl] at h
    obtain ⟨b, hb⟩ := Option.isSome_iff_exists.mp hl
    rw [← Option.some.inj h]
    exact ⟨b, hb⟩
  · rw [if_neg hl] at h
    rw [← Option.some.inj h]
    exact ⟨[], fsLookup_fsStore_self files name []⟩

theorem get_audio_of_lookup_none {st : ServerState} {fn : Str}
    (hflat : ('/' : Char) ∉ fn) (h : fsLookup st.files fn = none) :
    get_audio st fn = (st, .error ⟨404, chars "Audio file not found"⟩) := by
  simp only [get_audio, readFile, pathToName_join hflat, Option.some_bind, h]

theorem get_audio_of_lookup_some {st : ServerState} {fn : Str} {b : List Nat}
    (hflat : ('/' : Char) ∉ fn) (h : fsLookup st.files fn = some b) :
    get_audio st fn = (st, .ok b) := by
  simp only [get_audio, readFile, pathToName_join hflat, Option.some_bind, h]

/-! ### Claim theorems -/

/-- C5: a failed acquisition of the model handle is not cached as success:
whenever `get_tts_model` raises, the state is returned unchanged with the
shared `tts_model` still unloaded (`none`), and a subsequent acquisition
attempt re-enters the load path (here: a next call whose load body
completes returns without error instead of surfacing a stale failure). -/
theorem C5_load_failure_not_cached (st st2 : ServerState) (b : Bool) (e : Unit)
    (h : get_tts_model st b = (st2, .error e)) :
    st2 = st ∧ st2.tts_model = none ∧ get_tts_model st2 false = (st2, .ok none) := by
  rw [get_tts_model] at h
  cases hm : st.tts_model with
  | some m => rw [hm] at h; simp at h
  | none =>
    rw [hm] at h
    cases b with
    | false => simp at h
    | true =>
      simp only [if_true] at h
      have hst : st2 = st := (Prod.mk.injEq _ _ _ _ ▸ h).1.symm
      refine ⟨hst, hst ▸ hm, ?_⟩
      rw [get_tts_model]
      rw [hst, hm]
      simp [hm, hst]

theorem C5_witness :
    (⟨none, []⟩ : ServerState) = ⟨none, []⟩ ∧
    (⟨none, []⟩ : ServerState).tts_model = none ∧
    get_tts_model ⟨none, []⟩ false = (⟨none, []⟩, .ok none) :=
  C5_load_failure_not_cached ⟨none, []⟩ ⟨none, []⟩ true () (by rfl)

/-- C7: `GET /api/tts/audio/{filename}` returns a 404 `HTTPException`
exactly when no file with that name exists in the artifact store, and
returns the stored bytes when it does exist. -/
theorem C7_fetch_not_found (st : ServerState) (fn : Str)
    (hflat : ('/' : Char) ∉ fn) :
    (fsLookup st.files fn = none →
        get_audio st fn = (st, .error ⟨404, chars "Audio file not found"⟩)) ∧
    (∀ b, fsLookup st.files fn = some b → get_audio st fn = (st, .ok b)) :=
  ⟨fun h => get_audio_of_lookup_none hflat h,
   fun _ h => get_audio_of_lookup_some hflat h⟩

theorem C7_witness :
    get_audio ⟨none, []⟩ (chars "ghost.wav")
      = (⟨none, []⟩, .error ⟨404, chars "Audio file not found"⟩) ∧
    get_audio ⟨none, [(chars "a.wav", [7])]⟩ (chars "a.wav")
      = (⟨none, [(chars "a.wav", [7])]⟩, .ok [7]) :=
  ⟨(C7_fetch_not_found ⟨none, []⟩ (chars "ghost.wav") (by decide)).1 (by rfl),
   (C7_fetch_not_found ⟨none, [(chars "a.wav", [7])]⟩ (chars "a.wav")
      (by decide)).2 [7] (by rfl)⟩

/-- C8: `fetchArtifact` is idempotent: two consecutive `get_audio` calls
with the same identifier and no intervening store mutation return the
same outcome (in particular identical bytes), and neither call mutates
the state. -/
theorem C8_fetch_idempotent (st st1 st2 : ServerState) (fn : Str)
    (r1 r2 : Except HTTPException (List Nat))
    (h1 : get_audio st fn = (st1, r1)) (h2 : get_audio st1 fn = (st2, r2)) :
    r2 = r1 ∧ st2 = st1 ∧ st1 = st := by
  have e1 : st1 = st := by
    have := get_audio_state st fn
    rw [h1] at this
    exact this
  subst e1
  have e2 : st2 = st1 := by
    have := get_audio_state st1 fn
    rw [h2] at this
    exact this
  subst e2
  rw [h1] at h2
  exact ⟨(((Prod.mk.injEq _ _ _ _).mp h2).2).symm, rfl, rfl⟩

theorem C8_witness :
    (Except.ok [7] : Except HTTPException (List Nat)) = .ok [7] ∧
    (⟨none, [(chars "a.wav", [7])]⟩ : ServerState) = ⟨none, [(chars "a.wav", [7])]⟩ ∧
    (⟨none, [(chars "a.wav", [7])]⟩ : ServerState) = ⟨none, [(chars "a.wav", [7])]⟩ :=
  C8_fetch_idempotent ⟨none, [(chars "a.wav", [7])]⟩ _ _ (chars "a.wav") _ _
    (by rfl) (by rfl)

/-- C9: the current code never assigns the global `tts_model`: starting
from an unloaded state, any number of successful acquisitions leaves it
`none`, `get_tts_model` keeps returning `none`, `generate_speech` never
changes it, and `/health` keeps reporting `model_loaded = false`. -/
theorem C9_model_never_loaded (st : ServerState) (h : st.tts_model = none) :
    (∀ n, (iterGet st n).tts_model = none) ∧
    get_tts_model st false = (st, .ok none) ∧
    (∀ req freshId lr tr,
        ((generate_speech st req freshId lr tr).1).tts_model = none) ∧
    health_check st = ⟨chars "healthy", false⟩ := by
  have hstep : ∀ s : ServerState, (get_tts_model s false).1 = s :=
    fun s => get_tts_model_state s false
  refine ⟨?_, ?_, ?_, ?_⟩
  · intro n
    induction n with
    | zero => exact h
    | succ k ih =>
      show ((get_tts_model (iterGet st k) false).1).tts_model = none
      rw [hstep]
      exact ih
  · rw [get_tts_model, h]
    simp [h]
  · intro req freshId lr tr
    rw [generate_speech_tts_model]
    exact h
  · rw [health_check, h]
    rfl

theorem C9_witness :
    ((iterGet ⟨none, []⟩ 3).tts_model = none) ∧
    health_check ⟨none, []⟩ = ⟨chars "healthy", false⟩ :=
  ⟨(C9_model_never_loaded ⟨none, []⟩ rfl).1 3,
   (C9_model_never_loaded ⟨none, []⟩ rfl).2.2.2⟩

theorem outputFilename_flat {freshId : Str} (h : ('/' : Char) ∉ freshId) :
    ('/' : Char) ∉ outputFilename freshId := by
  intro hmem
  rcases List.mem_append.mp hmem with hh | hh
  · exact h hh
  · revert hh
    decide

theorem generate_speech_cases (st : ServerState) (req : TTSRequest)
    (freshId : Str) (lr tr : Bool) (hflat : ('/' : Char) ∉ freshId) :
    (st.tts_model = none ∧ lr = true ∧
        generate_speech st req freshId lr tr
          = (st, .error ⟨500, chars "Speech generation failed"⟩)) ∨
    (tr = true ∧
        generate_speech st req freshId lr tr
          = (st, .error ⟨500, chars "Speech generation failed"⟩)) ∨
    (∃ files1,
        touchFile st.files (ospath_join OUTPUT_PATH (outputFilename freshId))
          = some files1 ∧
        generate_speech st req freshId lr tr
          = ({ st with files := files1 },
             .ok ⟨chars "/api/tts/audio/" ++ outputFilename freshId, 0,
                  req.text⟩)) := by
  have hpn : pathToName (ospath_join OUTPUT_PATH (outputFilename freshId))
      = some (outputFilename freshId) := pathToName_join (outputFilename_flat hflat)
  have htf : ∃ files1,
      touchFile st.files (ospath_join OUTPUT_PATH (outputFilename freshId))
        = some files1 := by
    rw [touchFile]
    simp only [hpn]
    by_cases hl : (fsLookup st.files (outputFilename freshId)).isSome
    · exact ⟨_, if_pos hl⟩
    · exact ⟨_, if_neg hl⟩
  obtain ⟨files1, htf⟩ := htf
  cases hm : st.tts_model with
  | none =>
    cases lr with
    | true =>
      left
      refine ⟨rfl, rfl, ?_⟩
      rw [generate_speech, get_tts_model, hm]
      simp
    | false =>
      cases tr with
      | true =>
        right; left
        refine ⟨rfl, ?_⟩
        rw [generate_speech, get_tts_model, hm]
        simp
      | false =>
        right; right
        refine ⟨files1, htf, ?_⟩
        rw [generate_speech, get_tts_model, hm]
        simp only [Bool.false_eq_true, if_false, htf]
        rw [hm]
  | some m =>
    cases tr with
    | true =>
      right; left
      refine ⟨rfl, ?_⟩
      rw [generate_speech, get_tts_model, hm]
      simp
    | false =>
      right; right
      refine ⟨files1, htf, ?_⟩
      rw [generate_speech, get_tts_model, hm]
      simp only [Bool.false_eq_true, if_false, htf]
      rw [hm]

theorem audio_url_of_ok {st st2 : ServerState} {req : TTSRequest} {freshId : Str}
    {lr tr : Bool} {resp : TTSResponse}
    (h : generate_speech st req freshId lr tr = (st2, .ok resp)) :
    resp.audio_url = chars "/api/tts/audio/" ++ outputFilename freshId := by
  rw [generate_speech] at h
  rcases hg : get_tts_model st lr with ⟨st1, r⟩
  rw [hg] at h
  cases r with
  | error e => simp at h
  | ok mdl =>
    simp only at h
    cases tr with
    | true => simp at h
    | false =>
      simp only [Bool.false_eq_true, if_false] at h
      cases htf : touchFile st1.files (ospath_join OUTPUT_PATH (outputFilename freshId)) with
      | none => rw [htf] at h; simp at h
      | some files1 =>
        rw [htf] at h
        simp only [Prod.mk.injEq] at h
        obtain ⟨h1, h2⟩ := h
        rw [← Except.ok.inj h2]

/-- C1: for every request accepted by `generate_speech`, either a
`TTSResponse` is returned whose `audio_url` embeds the generated artifact
file name and that file name resolves through `get_audio` to readable
bytes in the post-state, or a documented `HTTPException` with status 500
is raised — never neither. -/
theorem C1_synthesize_resolves (st : ServerState) (req : TTSRequest)
    (freshId : Str) (lr tr : Bool) (hflat : ('/' : Char) ∉ freshId) :
    (∃ st2 resp bytes,
        generate_speech st req freshId lr tr = (st2, .ok resp) ∧
        resp.audio_url = chars "/api/tts/audio/" ++ outputFilename freshId ∧
        get_audio st2 (outputFilename freshId) = (st2, .ok bytes)) ∨
    (∃ st2 e,
        generate_speech st req freshId lr tr = (st2, .error e) ∧
        e.status_code = 500) := by
  rcases generate_speech_cases st req freshId lr tr hflat with
    ⟨_, _, hg⟩ | ⟨_, hg⟩ | ⟨files1, htf, hg⟩
  · right
    exact ⟨st, _, hg, rfl⟩
  · right
    exact ⟨st, _, hg, rfl⟩
  · left
    have hpn : pathToName (ospath_join OUTPUT_PATH (outputFilename freshId))
        = some (outputFilename freshId) :=
      pathToName_join (outputFilename_flat hflat)
    obtain ⟨bytes, hb⟩ := touchFile_lookup hpn htf
    refine ⟨_, _, bytes, hg, rfl, ?_⟩
    exact get_audio_of_lookup_some (outputFilename_flat hflat) hb

theorem C1_witness :
    (∃ st2 resp bytes,
        generate_speech ⟨none, []⟩ { text := chars "hi" } (chars "u") false false
          = (st2, .ok resp) ∧
        resp.audio_url = chars "/api/tts/audio/" ++ outputFilename (chars "u") ∧
        get_audio st2 (outputFilename (chars "u")) = (st2, .ok bytes)) ∨
    (∃ st2 e,
        generate_speech ⟨none, []⟩ { text := chars "hi" } (chars "u") false false
          = (st2, .error e) ∧
        e.status_code = 500) :=
  C1_synthesize_resolves ⟨none, []⟩ { text := chars "hi" } (chars "u") false false
    (by decide)

/-- C2: with a fresh generated identifier, a successful `generate_speech`
call adds exactly one file (the empty artifact the stub touches) to the
output directory, and a failing call leaves the store untouched. -/
theorem C2_artifact_count (st : ServerState) (req : TTSRequest) (freshId : Str)
    (lr tr : Bool) (hflat : ('/' : Char) ∉ freshId)
    (hfresh : fsLookup st.files (outputFilename freshId) = none) :
    (∀ st2 resp, generate_speech st req freshId lr tr = (st2, .ok resp) →
        st2.files = st.files ++ [(outputFilename freshId, [])]) ∧
    (∀ st2 e, generate_speech st req freshId lr tr = (st2, .error e) →
        st2.files = st.files) := by
  rcases generate_speech_cases st req freshId lr tr hflat with
    ⟨_, _, hg⟩ | ⟨_, hg⟩ | ⟨files1, htf, hg⟩
  · constructor
    · intro st2 resp h
      rw [hg] at h
      simp at h
    · intro st2 e h
      rw [hg] at h
      simp only [Prod.mk.injEq] at h
      rw [← h.1]
  · constructor
    · intro st2 resp h
      rw [hg] at h
      simp at h
    · intro st2 e h
      rw [hg] at h
      simp only [Prod.mk.injEq] at h
      rw [← h.1]
  · have hfiles : files1 = st.files ++ [(outputFilename freshId, [])] := by
      rw [touchFile] at htf
      simp only [pathToName_join (outputFilename_flat hflat)] at htf
      rw [hfresh] at htf
      simp only [Option.isSome_none, Bool.false_eq_true, if_false] at htf
      rw [← Option.some.inj htf]
      exact fsStore_of_lookup_none [] hfresh
    constructor
    · intro st2 resp h
      rw [hg] at h
      simp only [Prod.mk.injEq] at h
      rw [← h.1, hfiles]
    · intro st2 e h
      rw [hg] at h
      simp at h

theorem C2_witness :
    (⟨none, [(outputFilename (chars "u"), [])]⟩ : ServerState).files
      = ([] : List (Str × List Nat)) ++ [(outputFilename (chars "u"), [])] :=
  (C2_artifact_count ⟨none, []⟩ { text := chars "hi" } (chars "u") false false
      (by decide) (by rfl)).1
    ⟨none, [(outputFilename (chars "u"), [])]⟩
    ⟨chars "/api/tts/audio/" ++ outputFilename (chars "u"), 0, chars "hi"⟩
    (by rfl)

/-- C3 (the code's actual behaviour at the claimed failing input): the
current `generate_speech` performs no text validation, so an empty-text
and a whitespace-only request are both accepted, return an HTTP-200-class
`TTSResponse`, and create one artifact — instead of the claimed
`ValidationError` with zero artifacts. -/
theorem C3_empty_text_not_rejected :
    (generate_speech ⟨none, []⟩ { text := [] } (chars "u") false false
      = (⟨none, [(outputFilename (chars "u"), [])]⟩,
         .ok ⟨chars "/api/tts/audio/" ++ outputFilename (chars "u"), 0, []⟩)) ∧
    (generate_speech ⟨none, []⟩ { text := chars " " } (chars "v") false false
      = (⟨none, [(outputFilename (chars "v"), [])]⟩,
         .ok ⟨chars "/api/tts/audio/" ++ outputFilename (chars "v"), 0,
              chars " "⟩)) :=
  ⟨rfl, rfl⟩

/-- C4: uploading with a filename containing a path-traversal sequence
fails (HTTP 500 — the storage-error class of spec §7) and no file is
written anywhere, in particular none outside the output directory: the
uuid prefix glues onto the first `..` segment and the resulting write
path has no existing parent directory, so `open` raises. -/
theorem C4_upload_traversal_rejected (st : ServerState) (orig : Str)
    (content : List Nat) (freshId : Str) (hid : ('/' : Char) ∉ freshId)
    (htrav : occursIn (chars "../") orig = true) :
    upload_voice_sample st orig content freshId
      = (st, .error ⟨500, chars "File upload failed"⟩) := by
  have hslash : ('/' : Char) ∈ orig := mem_of_occursIn htrav (by decide)
  have hmem : ('/' : Char) ∈ freshId ++ chars "_" ++ orig :=
    List.mem_append.mpr (Or.inr hslash)
  have hhead : (freshId ++ chars "_" ++ orig).head? ≠ some '/' := by
    cases hf : freshId with
    | nil =>
      have : ([] : Str) ++ chars "_" ++ orig = '_' :: orig := rfl
      rw [this]
      simp
    | cons c cs =>
      have hc : c ≠ '/' := fun hcc => hid (by rw [hf, hcc]; exact List.mem_cons_self _ _)
      simp [hc]
  have hpn := pathToName_join_slash hhead hmem
  rw [upload_voice_sample]
  simp only [writeFile, hpn, Option.map_none']

theorem C4_witness :
    upload_voice_sample ⟨none, []⟩ (chars "../../etc/passwd") [1] (chars "u")
      = (⟨none, []⟩, .error ⟨500, chars "File upload failed"⟩) :=
  C4_upload_traversal_rejected ⟨none, []⟩ (chars "../../etc/passwd") [1]
    (chars "u") (by decide) (by decide)

/-- C6: two successful `generate_speech` calls whose generated identifiers
differ return distinct artifact references: both the embedded output file
names and the returned `audio_url`s differ. -/
theorem C6_distinct_ids (stA stB stA2 stB2 : ServerState)
    (reqA reqB : TTSRequest) (idA idB : Str) (lrA trA lrB trB : Bool)
    (respA respB : TTSResponse)
    (hA : generate_speech stA reqA idA lrA trA = (stA2, .ok respA))
    (hB : generate_speech stB reqB idB lrB trB = (stB2, .ok respB))
    (hne : idA ≠ idB) :
    respA.audio_url ≠ respB.audio_url ∧
    outputFilename idA ≠ outputFilename idB := by
  have hfn : outputFilename idA ≠ outputFilename idB := by
    intro h
    exact hne (List.append_cancel_right h)
  refine ⟨?_, hfn⟩
  rw [audio_url_of_ok hA, audio_url_of_ok hB]
  intro h
  exact hfn (List.append_cancel_left h)

theorem C6_witness :
    (⟨chars "/api/tts/audio/" ++ outputFilename (chars "u"), 0,
        chars "x"⟩ : TTSResponse).audio_url
      ≠ (⟨chars "/api/tts/audio/" ++ outputFilename (chars "v"), 0,
          chars "x"⟩ : TTSResponse).audio_url ∧
    outputFilename (chars "u") ≠ outputFilename (chars "v") :=
  C6_distinct_ids ⟨none, []⟩ ⟨none, []⟩ _ _ { text := chars "x" }
    { text := chars "x" } (chars "u") (chars "v") false false false false _ _
    (by rfl) (by rfl) (by decide)

theorem mem_list_voices {d : Option (List Str)} {e : VoiceEntry}
    (h : e ∈ list_voices d) :
    (endsWithB (chars ".wav") e.id = true ∨ endsWithB (chars ".mp3") e.id = true) ∧
    e.name = removeAll (chars ".mp3") (removeAll (chars ".wav") e.id) ∧
    e.path = chars "examples/" ++ e.id := by
  cases d with
  | none => simp [list_voices] at h
  | some files =>
    rw [list_voices] at h
    rw [List.mem_filterMap] at h
    obtain ⟨f, _, hf⟩ := h
    by_cases hc : endsWithB (chars ".wav") f = true ∨ endsWithB (chars ".mp3") f = true
    · rw [if_pos (by simpa using hc)] at hf
      have he := Option.some.inj hf
      rw [← he]
      exact ⟨hc, rfl, rfl⟩
    · rw [if_neg (by simpa using hc)] at hf
      exact absurd hf (by simp)

/-- C10 counterexample: the claim that every listed voice's `name` equals
its `id` stripped of the final extension is false.  Python's
`str.replace` removes every occurrence, so the file `a.wav.mp3` is listed
with name `a`, while the id stripped of its `.mp3` extension is `a.wav`. -/
theorem C10_counterexample :
    ∃ e, e ∈ list_voices (some [chars "a.wav.mp3"]) ∧
      e.name ≠ stripExtSpec e.id := by
  refine ⟨⟨chars "a.wav.mp3", chars "a", chars "examples/" ++ chars "a.wav.mp3"⟩,
    ?_, ?_⟩
  · rw [list_voices]
    have hcond : (endsWithB (chars ".wav") (chars "a.wav.mp3")
        || endsWithB (chars ".mp3") (chars "a.wav.mp3")) = true := by decide
    have hname : removeAll (chars ".mp3") (removeAll (chars ".wav") (chars "a.wav.mp3"))
        = chars "a" := by
      simp +decide [removeAll, chars]
    simp only [List.filterMap_cons, List.filterMap_nil, hcond, if_pos, hname]
    simp [hname]
  · decide

/-- C10 (amended): `list_voices` on a missing directory returns the empty
list; every returned entry has an id ending in `.wav` or `.mp3` and a
name equal to the id with every occurrence of `.wav` and then `.mp3`
removed — which coincides with stripping the final extension exactly when
the extension patterns occur nowhere else in the id. -/
theorem C10_list_voices (d : Option (List Str)) :
    list_voices none = [] ∧
    (∀ e, e ∈ list_voices d →
        (endsWithB (chars ".wav") e.id = true ∨
         endsWithB (chars ".mp3") e.id = true) ∧
        e.name = removeAll (chars ".mp3") (removeAll (chars ".wav") e.id)) ∧
    (∀ e base, e ∈ list_voices d → e.id = base ++ chars ".wav" →
        occursIn (chars ".wav") (base ++ chars ".wav").dropLast = false →
        occursIn (chars ".mp3") base = false →
        e.name = base) ∧
    (∀ e base, e ∈ list_voices d → e.id = base ++ chars ".mp3" →
        occursIn (chars ".wav") (base ++ chars ".mp3") = false →
        occursIn (chars ".mp3") (base ++ chars ".mp3").dropLast = false →
        e.name = base) := by
  refine ⟨rfl, ?_, ?_, ?_⟩
  · intro e he
    exact ⟨(mem_list_voices he).1, (mem_list_voices he).2.1⟩
  · intro e base he hid hwav hmp3
    have hn := (mem_list_voices he).2.1
    rw [hid] at hn
    rw [removeAll_append_self (by decide) base hwav] at hn
    rw [removeAll_of_not_occurs hmp3] at hn
    exact hn
  · intro e base he hid hwav hmp3
    have hn := (mem_list_voices he).2.1
    rw [hid] at hn
    rw [removeAll_of_not_occurs hwav] at hn
    rw [removeAll_append_self (by decide) base hmp3] at hn
    exact hn

theorem C10_witness :
    (⟨chars "hello.wav",
      removeAll (chars ".mp3") (removeAll (chars ".wav") (chars "hello.wav")),
      chars "examples/" ++ chars "hello.wav"⟩ : VoiceEntry).name
      = chars "hello" := by
  apply (C10_list_voices (some [chars "hello.wav"])).2.2.1 _ (chars "hello")
  · rw [list_voices]
    simp only [List.filterMap_cons, List.filterMap_nil]
    rw [if_pos (by decide)]
    simp
  · decide
  · decide
  · decide
